import Mathlib

/-!
Verification of the slot-scheduling engine of the saltallthethings site
(src/js/show-engine.js) and its public feed endpoint
(src/cloudflare/worker.js).

Modelling conventions:
* Calendar dates are `YYYY-MM-DD` strings in the source; we represent a
  calendar date by its day number (days since 1970-01-01, an `Int`).  This
  representation preserves ordering and day differences, which is all the
  engine uses: the source compares `Date` objects (midnight timestamps) and
  ISO date strings, both of which agree with day-number order, and advances
  dates with `setDate(getDate() + 7)`, which is day-number addition.
* JavaScript truthiness of the `releaseDateOverride` field matters
  (`slot.releaseDateOverride || slot.releaseDate`), so the values that can be
  stored there are modelled by `DateStr`: a date string or the empty string;
  an absent field (JS `undefined` after `delete`, or never set) is `none`.
-/

namespace Satt

/-- One JavaScript string value that can sit in a date-valued field: either a
`YYYY-MM-DD` date string (represented by its day number) or the empty string.
Under JS truthiness the empty string is falsy and every date string is truthy. -/
inductive DateStr where
  | date (day : Int)
  | empty
deriving DecidableEq

/-- One show slot as produced by `ShowEngine._generateSlots`
(src/js/show-engine.js).  `recordDate` and `releaseDate` are stored as
`YYYY-MM-DD` strings in the source and represented here by day numbers.
`releaseDateOverride` is absent (`none`) until `setReleaseDate` stores a
value; `resetReleaseDate` deletes the field, i.e. returns it to `none`. -/
structure Slot where
  id : String
  episodeNumber : String
  episodeNum : Nat
  recordDate : Int
  releaseDate : Int
  isRollout : Bool
  releaseDateOverride : Option DateStr := none
deriving DecidableEq

/-- Source constant `ShowEngine.FIRST_RECORD_DATE = new Date('2026-01-20T00:00:00')`:
the day number of 2026-01-20 (days since 1970-01-01). -/
def FIRST_RECORD_DATE : Int := 20473

/-- Source constant `ShowEngine.LAUNCH_DATE = new Date('2026-03-03T00:00:00')`:
the day number of 2026-03-03.  It is 42 days after `FIRST_RECORD_DATE`. -/
def LAUNCH_DATE : Int := 20515

/-- Source constant `ShowEngine.ROLLOUT_EPISODES_PER_WEEK = 2`: banked episodes
released per Tuesday during the rollout. -/
def ROLLOUT_EPISODES_PER_WEEK : Int := 2

/-- Source constant `ShowEngine.GENERATE_MONTHS_AHEAD = 3`.  The horizon target
is computed by `_getTargetDate` as "now plus 3 calendar months"; calendar-month
arithmetic is outside the day-number model, so `ensureSlots` below takes the
resulting target date as a parameter. -/
def GENERATE_MONTHS_AHEAD : Nat := 3

/-- Source `ShowEngine._calculateReleaseDate(recordDate, epNum)`: the natural
release is one week after recording; if that is strictly after the launch date
the slot releases naturally, otherwise it is banked and released
`Math.floor((epNum - 1) / ROLLOUT_EPISODES_PER_WEEK)` weeks after launch. -/
def calculateReleaseDate (recordDate : Int) (epNum : Nat) : Int :=
  let normalRelease := recordDate + 7
  if LAUNCH_DATE < normalRelease then
    normalRelease
  else
    let weekOffset := ((epNum : Int) - 1).fdiv ROLLOUT_EPISODES_PER_WEEK
    LAUNCH_DATE + weekOffset * 7

/-- Source `ShowEngine._isRolloutEpisode(recordDate)`: true when the natural
release date (`recordDate + 7 days`) is on or before the launch date. -/
def isRolloutEpisode (recordDate : Int) : Bool :=
  decide (recordDate + 7 ≤ LAUNCH_DATE)

/-- Source `ShowEngine._formatEpNumber(num)`: `'EP' + String(num).padStart(3, '0')`. -/
def formatEpNumber (num : Nat) : String :=
  let s := toString num
  "EP" ++ (String.mk (List.replicate (3 - s.length) '0') ++ s)

/-- The slot object pushed by one iteration of the `while` loop in
`ShowEngine._generateSlots`. -/
def mkSlot (recordDate : Int) (epNum : Nat) : Slot :=
  { id := "slot_" ++ toString epNum
    episodeNumber := formatEpNumber epNum
    episodeNum := epNum
    recordDate := recordDate
    releaseDate := calculateReleaseDate recordDate epNum
    isRollout := isRolloutEpisode recordDate }

/-- Fuel-indexed form of the `while (current <= endDate)` loop in
`ShowEngine._generateSlots`; the fuel only bounds the number of iterations
(`genFuel_congr` below shows any sufficient fuel yields the same list). -/
def genFuel : Nat → Int → Int → Nat → List Slot
  | 0, _, _, _ => []
  | fuel + 1, current, endDate, epNum =>
    if current ≤ endDate then
      mkSlot current epNum :: genFuel fuel (current + 7) endDate (epNum + 1)
    else []

/-- Source `ShowEngine._generateSlots(startDate, endDate, startEpNum)`: one
slot per week from `startDate` through `endDate` inclusive, episode numbers
counting up from `startEpNum`. -/
def generateSlots (startDate endDate : Int) (startEpNum : Nat) : List Slot :=
  genFuel (endDate + 7 - startDate).toNat startDate endDate startEpNum

/-- Source `ShowEngine.ensureSlots()`: the first component of the result is
the collection the call returns (also the new store contents), the second
records whether `Storage.saveShowSlots` was invoked.  The horizon target
(`_getTargetDate()`, i.e. now + 3 months) is passed in as `target`. -/
def ensureSlots (stored : List Slot) (target : Int) : List Slot × Bool :=
  match stored.getLast? with
  | none => (generateSlots FIRST_RECORD_DATE target 1, true)
  | some lastSlot =>
    if lastSlot.recordDate < target then
      (stored ++ generateSlots (lastSlot.recordDate + 7) target (stored.length + 1), true)
    else
      (stored, false)

/-- Source `ShowEngine.getEffectiveReleaseDate(slot)`:
`slot.releaseDateOverride || slot.releaseDate` — the override wins exactly
when it is truthy (present and not the empty string). -/
def getEffectiveReleaseDate (slot : Slot) : DateStr :=
  match slot.releaseDateOverride with
  | some (DateStr.date d) => DateStr.date d
  | some DateStr.empty => DateStr.date slot.releaseDate
  | none => DateStr.date slot.releaseDate

/-- Day number of the effective release date of a slot. -/
def effectiveDay (slot : Slot) : Int :=
  match getEffectiveReleaseDate slot with
  | DateStr.date d => d
  | DateStr.empty => slot.releaseDate

/-- Source `slots.find(s => s.id === slotId)`. -/
def findSlot (slots : List Slot) (slotId : String) : Option Slot :=
  slots.find? (fun s => s.id == slotId)

/-- In-place mutation of the first slot with the given id (what the JS
`slot.releaseDateOverride = newDate` / `delete slot.releaseDateOverride`
does to the array the slot was found in). -/
def setSlotOverride (slots : List Slot) (slotId : String) (v : Option DateStr) : List Slot :=
  match slots with
  | [] => []
  | s :: rest =>
    if s.id = slotId then { s with releaseDateOverride := v } :: rest
    else s :: setSlotOverride rest slotId v

/-- Source `ShowEngine.setReleaseDate(slotId, newDate)`: components are the
returned value (the mutated slot, or `null`), the new store contents, and
whether `Storage.saveShowSlots` was invoked. -/
def setReleaseDate (stored : List Slot) (slotId : String) (newDate : DateStr) :
    Option Slot × List Slot × Bool :=
  match findSlot stored slotId with
  | none => (none, stored, false)
  | some s =>
    (some { s with releaseDateOverride := some newDate },
     setSlotOverride stored slotId (some newDate), true)

/-- Source `ShowEngine.resetReleaseDate(slotId)`: deletes the override field
of the matching slot.  Components as in `setReleaseDate`. -/
def resetReleaseDate (stored : List Slot) (slotId : String) :
    Option Slot × List Slot × Bool :=
  match findSlot stored slotId with
  | none => (none, stored, false)
  | some s =>
    (some { s with releaseDateOverride := none },
     setSlotOverride stored slotId none, true)

/-! ### Basic lemmas about slot generation -/

lemma genFuel_succ (f : Nat) (c e : Int) (n : Nat) :
    genFuel (f + 1) c e n =
      if c ≤ e then mkSlot c n :: genFuel f (c + 7) e (n + 1) else [] := rfl

lemma genFuel_stop (f : Nat) (c e : Int) (n : Nat) (h : e < c) :
    genFuel f c e n = [] := by
  cases f with
  | zero => rfl
  | succ g => rw [genFuel_succ, if_neg (by omega)]

/-- Any two sufficient fuels produce the same list. -/
lemma genFuel_congr (f₁ : Nat) : ∀ (f₂ : Nat) (c e : Int) (n : Nat),
    (e + 7 - c).toNat ≤ 7 * f₁ → (e + 7 - c).toNat ≤ 7 * f₂ →
    genFuel f₁ c e n = genFuel f₂ c e n := by
  induction f₁ with
  | zero =>
    intro f₂ c e n h₁ _
    have hce : e < c := by omega
    rw [genFuel_stop 0 c e n hce, genFuel_stop f₂ c e n hce]
  | succ f ih =>
    intro f₂ c e n h₁ h₂
    by_cases hce : c ≤ e
    · cases f₂ with
      | zero => omega
      | succ g =>
        rw [genFuel_succ, genFuel_succ, if_pos hce, if_pos hce]
        exact congrArg _ (ih g (c + 7) e (n + 1) (by omega) (by omega))
    · rw [genFuel_stop (f + 1) c e n (by omega), genFuel_stop f₂ c e n (by omega)]

lemma generateSlots_nil (s e : Int) (n : Nat) (h : e < s) :
    generateSlots s e n = [] :=
  genFuel_stop _ s e n h

/-- Reduction of `ensureSlots` once the last stored slot is known. -/
lemma ensureSlots_eq_of_getLast (l : List Slot) (target : Int) (last : Slot)
    (h : l.getLast? = some last) :
    ensureSlots l target =
      if last.recordDate < target then
        (l ++ generateSlots (last.recordDate + 7) target (l.length + 1), true)
      else (l, false) := by
  unfold ensureSlots
  rw [h]

lemma generateSlots_cons (s e : Int) (n : Nat) (h : s ≤ e) :
    generateSlots s e n = mkSlot s n :: generateSlots (s + 7) e (n + 1) := by
  unfold generateSlots
  rw [show (e + 7 - s).toNat = ((e - s).toNat + 6) + 1 by omega]
  rw [genFuel_succ, if_pos h]
  refine congrArg _ (genFuel_congr _ _ _ _ _ ?_ ?_) <;> omega

lemma generateSlots_eq_nil_iff (s e : Int) (n : Nat) :
    generateSlots s e n = [] ↔ e < s := by
  constructor
  · intro h
    by_contra hc
    rw [generateSlots_cons s e n (by omega)] at h
    exact List.cons_ne_nil _ _ h
  · exact generateSlots_nil s e n

/-- Every generated slot is `mkSlot` of the arithmetically advanced cursor. -/
lemma generateSlots_getElem? (s e : Int) (n : Nat) (i : Nat)
    (h : i < (generateSlots s e n).length) :
    (generateSlots s e n)[i]? = some (mkSlot (s + 7 * (i : Int)) (n + i)) := by
  by_cases hse : s ≤ e
  · rw [generateSlots_cons s e n hse] at h ⊢
    cases i with
    | zero =>
      show (mkSlot s n :: generateSlots (s + 7) e (n + 1))[0]? =
        some (mkSlot (s + 7 * ((0 : Nat) : Int)) (n + 0))
      rw [List.getElem?_cons_zero]
      norm_num
    | succ j =>
      have h' : j < (generateSlots (s + 7) e (n + 1)).length := by
        simpa using h
      rw [List.getElem?_cons_succ, generateSlots_getElem? (s + 7) e (n + 1) j h']
      congr 2
      · push_cast
        ring
      · omega
  · rw [generateSlots_nil s e n (by omega)] at h
    simp at h
termination_by (e + 7 - s).toNat
decreasing_by omega

/-- Characterisation of a successful index lookup in a generated run. -/
lemma generateSlots_elem {s e : Int} {n i : Nat} {slot : Slot}
    (h : (generateSlots s e n)[i]? = some slot) :
    slot = mkSlot (s + 7 * (i : Int)) (n + i) := by
  have hlen : i < (generateSlots s e n).length := by
    by_contra hc
    rw [List.getElem?_eq_none (by omega)] at h
    exact Option.noConfusion h
  rw [generateSlots_getElem? s e n i hlen] at h
  exact (Option.some.inj h).symm

lemma generateSlots_mem {s e : Int} {n : Nat} {slot : Slot}
    (hm : slot ∈ generateSlots s e n) :
    ∃ i : Nat, slot = mkSlot (s + 7 * (i : Int)) (n + i) := by
  obtain ⟨i, hi⟩ := List.mem_iff_getElem?.mp hm
  exact ⟨i, generateSlots_elem hi⟩

lemma generateSlots_mem_le {s e : Int} {n : Nat} {slot : Slot}
    (hm : slot ∈ generateSlots s e n) : slot.recordDate ≤ e := by
  by_cases hse : s ≤ e
  · rw [generateSlots_cons s e n hse] at hm
    rcases List.mem_cons.mp hm with rfl | hm
    · simpa [mkSlot] using hse
    · exact generateSlots_mem_le hm
  · rw [generateSlots_nil s e n (by omega)] at hm
    simp at hm
termination_by (e + 7 - s).toNat
decreasing_by omega

/-- The last generated slot records at most `e` days in, and fewer than 7 days
before the end of the window (the loop stops right after passing `e`). -/
lemma generateSlots_getLast {s e : Int} {n : Nat} {slot : Slot}
    (h : (generateSlots s e n).getLast? = some slot) :
    slot.recordDate ≤ e ∧ e < slot.recordDate + 7 := by
  by_cases hse : s ≤ e
  · rw [generateSlots_cons s e n hse] at h
    by_cases htail : s + 7 ≤ e
    · rw [generateSlots_cons (s + 7) e (n + 1) htail] at h
      rw [List.getLast?_cons_cons] at h
      rw [← generateSlots_cons (s + 7) e (n + 1) htail] at h
      exact generateSlots_getLast h
    · rw [generateSlots_nil (s + 7) e (n + 1) (by omega)] at h
      simp only [List.getLast?_singleton, Option.some.injEq] at h
      subst h
      constructor
      · simpa [mkSlot] using hse
      · simp only [mkSlot]
        omega
  · rw [generateSlots_nil s e n (by omega)] at h
    simp at h
termination_by (e + 7 - s).toNat
decreasing_by omega

/-! ### C1 and C2: the release-date policy -/

/-- Claim C1: for every slot generated with episode number `n` whose natural
release date (`recordDate + 7` days) is on or before the configured launch
date, the computed `releaseDate` equals launch date plus
`7 * floor((n - 1) / K)` days with `K = ROLLOUT_EPISODES_PER_WEEK = 2`, and
`isRollout` is true for that slot. -/
theorem banked_release_policy (s e : Int) (n₀ : Nat) (slot : Slot)
    (hmem : slot ∈ generateSlots s e n₀)
    (hbank : slot.recordDate + 7 ≤ LAUNCH_DATE) :
    slot.releaseDate =
      LAUNCH_DATE + 7 * (((slot.episodeNum : Int) - 1).fdiv ROLLOUT_EPISODES_PER_WEEK) ∧
    slot.isRollout = true := by
  obtain ⟨i, rfl⟩ := generateSlots_mem hmem
  simp only [mkSlot] at hbank ⊢
  constructor
  · rw [calculateReleaseDate, if_neg (by omega)]
    ring
  · rw [isRolloutEpisode, decide_eq_true_eq]
    omega

/-- Witness for C1: episode 1 recorded on the first record date is banked and
releases on launch day. -/
theorem banked_release_policy_witness :
    (mkSlot FIRST_RECORD_DATE 1 ∈ generateSlots FIRST_RECORD_DATE FIRST_RECORD_DATE 1 ∧
     (mkSlot FIRST_RECORD_DATE 1).recordDate + 7 ≤ LAUNCH_DATE) ∧
    ((mkSlot FIRST_RECORD_DATE 1).releaseDate =
      LAUNCH_DATE +
        7 * ((((mkSlot FIRST_RECORD_DATE 1).episodeNum : Int) - 1).fdiv ROLLOUT_EPISODES_PER_WEEK) ∧
     (mkSlot FIRST_RECORD_DATE 1).isRollout = true) :=
  ⟨⟨by decide, by decide⟩,
   banked_release_policy FIRST_RECORD_DATE FIRST_RECORD_DATE 1 _ (by decide) (by decide)⟩

/-- Claim C2: for every generated slot whose natural release date
(`recordDate + 7` days) is strictly after the configured launch date, the
computed `releaseDate` equals `recordDate + 7` days and `isRollout` is false. -/
theorem post_launch_release_policy (s e : Int) (n₀ : Nat) (slot : Slot)
    (hmem : slot ∈ generateSlots s e n₀)
    (hpost : LAUNCH_DATE < slot.recordDate + 7) :
    slot.releaseDate = slot.recordDate + 7 ∧ slot.isRollout = false := by
  obtain ⟨i, rfl⟩ := generateSlots_mem hmem
  simp only [mkSlot] at hpost ⊢
  constructor
  · rw [calculateReleaseDate, if_pos (by omega)]
  · rw [isRolloutEpisode, decide_eq_false_iff_not]
    omega

/-- Witness for C2: an episode recorded on launch day releases a week later
and is not a rollout episode. -/
theorem post_launch_release_policy_witness :
    (mkSlot LAUNCH_DATE 7 ∈ generateSlots LAUNCH_DATE LAUNCH_DATE 7 ∧
     LAUNCH_DATE < (mkSlot LAUNCH_DATE 7).recordDate + 7) ∧
    ((mkSlot LAUNCH_DATE 7).releaseDate = (mkSlot LAUNCH_DATE 7).recordDate + 7 ∧
     (mkSlot LAUNCH_DATE 7).isRollout = false) :=
  ⟨⟨by decide, by decide⟩,
   post_launch_release_policy LAUNCH_DATE LAUNCH_DATE 7 _ (by decide) (by decide)⟩

/-! ### C3: contiguity invariant -/

/-- Contiguity invariant from the spec: the slot at position `i` carries
`episodeNum = i + 1` (so the values are exactly `1..N`, gap-free,
duplicate-free and sorted ascending) and consecutive record dates differ by
exactly 7 days. -/
def Contiguous (l : List Slot) : Prop :=
  (∀ i s, l[i]? = some s → s.episodeNum = i + 1) ∧
  (∀ i s s', l[i]? = some s → l[i + 1]? = some s' →
    s'.recordDate = s.recordDate + 7)

lemma contiguous_nil : Contiguous [] := by
  constructor
  · intro i s h
    simp at h
  · intro i s s' h
    simp at h

/-- Claim C3: the contiguity invariant holds for collections generated from
scratch and is maintained across `ensureSlots` calls: `episodeNum` values are
exactly `1..N` with no gaps or duplicates (hence sorted ascending), and
consecutive slots' record dates differ by exactly 7 days. -/
theorem ensureSlots_contiguous (stored : List Slot) (target : Int)
    (hc : Contiguous stored) : Contiguous (ensureSlots stored target).1 := by
  rcases hlast : stored.getLast? with _ | last
  · have hnil : stored = [] := List.getLast?_eq_none_iff.mp hlast
    subst hnil
    show Contiguous (generateSlots FIRST_RECORD_DATE target 1)
    constructor
    · intro i s h
      rw [generateSlots_elem h]
      simp only [mkSlot]
      omega
    · intro i s s' h h'
      rw [generateSlots_elem h, generateSlots_elem h']
      simp only [mkSlot]
      push_cast
      ring
  · have hne : stored ≠ [] := by
      intro h
      rw [h] at hlast
      simp at hlast
    have hN : 1 ≤ stored.length := List.length_pos.mpr hne
    have hlastElem : stored[stored.length - 1]? = some last := by
      rw [← List.getLast?_eq_getElem?]
      exact hlast
    have hred : ensureSlots stored target =
        if last.recordDate < target then
          (stored ++ generateSlots (last.recordDate + 7) target (stored.length + 1), true)
        else (stored, false) := by
      unfold ensureSlots
      rw [hlast]
    by_cases hlt : last.recordDate < target
    · rw [hred, if_pos hlt]
      show Contiguous
        (stored ++ generateSlots (last.recordDate + 7) target (stored.length + 1))
      constructor
      · intro i s h
        by_cases hi : i < stored.length
        · rw [List.getElem?_append_left hi] at h
          exact hc.1 i s h
        · rw [List.getElem?_append_right (by omega)] at h
          rw [generateSlots_elem h]
          simp only [mkSlot]
          omega
      · intro i s s' h h'
        by_cases hi : i + 1 < stored.length
        · rw [List.getElem?_append_left (by omega)] at h
          rw [List.getElem?_append_left hi] at h'
          exact hc.2 i s s' h h'
        · by_cases hieq : i + 1 = stored.length
          · rw [List.getElem?_append_left (by omega)] at h
            rw [List.getElem?_append_right (by omega)] at h'
            rw [show i = stored.length - 1 by omega] at h
            rw [hlastElem] at h
            rw [show i + 1 - stored.length = 0 by omega] at h'
            rw [generateSlots_elem h', ← Option.some.inj h]
            simp only [mkSlot]
            push_cast
            ring
          · rw [List.getElem?_append_right (by omega)] at h
            rw [List.getElem?_append_right (by omega)] at h'
            rw [generateSlots_elem h, generateSlots_elem h']
            simp only [mkSlot]
            omega
    · rw [hred, if_neg hlt]
      exact hc

/-- Witness for C3: growing the empty collection yields a contiguous one. -/
theorem ensureSlots_contiguous_witness :
    Contiguous ([] : List Slot) ∧
    Contiguous (ensureSlots [] (FIRST_RECORD_DATE + 7)).1 :=
  ⟨contiguous_nil, ensureSlots_contiguous [] (FIRST_RECORD_DATE + 7) contiguous_nil⟩

/-! ### C4: extension correctness -/

/-- Claim C4: if the stored collection's last record date `D` is before the
horizon target, `ensureSlots` keeps the pre-existing slots unchanged and
appends only slots with record dates strictly greater than `D`; the first
appended slot (if any) records exactly at `D + 7` days, and episode numbers
continue from `N + 1`. -/
theorem ensureSlots_extends (stored : List Slot) (target : Int) (last : Slot)
    (hl : stored.getLast? = some last) (hlt : last.recordDate < target) :
    ((ensureSlots stored target).1.take stored.length = stored) ∧
    (∀ s ∈ (ensureSlots stored target).1.drop stored.length,
        last.recordDate < s.recordDate) ∧
    (∀ s, ((ensureSlots stored target).1.drop stored.length).head? = some s →
        s.recordDate = last.recordDate + 7 ∧ s.episodeNum = stored.length + 1) ∧
    (∀ i s, ((ensureSlots stored target).1.drop stored.length)[i]? = some s →
        s.episodeNum = stored.length + 1 + i) := by
  have e1 : (ensureSlots stored target).1 =
      stored ++ generateSlots (last.recordDate + 7) target (stored.length + 1) := by
    rw [ensureSlots_eq_of_getLast stored target last hl, if_pos hlt]
  rw [e1, List.take_left, List.drop_left]
  refine ⟨rfl, ?_, ?_, ?_⟩
  · intro s hs
    obtain ⟨i, rfl⟩ := generateSlots_mem hs
    simp only [mkSlot]
    omega
  · intro s hs
    rw [List.head?_eq_getElem?] at hs
    rw [generateSlots_elem hs]
    simp only [mkSlot]
    norm_num
  · intro i s h
    rw [generateSlots_elem h]
    simp only [mkSlot]

/-- Witness for C4 on a one-slot collection extended by two more weeks. -/
theorem ensureSlots_extends_witness :
    ([mkSlot FIRST_RECORD_DATE 1].getLast? = some (mkSlot FIRST_RECORD_DATE 1) ∧
     (mkSlot FIRST_RECORD_DATE 1).recordDate < FIRST_RECORD_DATE + 20) ∧
    (((ensureSlots [mkSlot FIRST_RECORD_DATE 1] (FIRST_RECORD_DATE + 20)).1.take
        [mkSlot FIRST_RECORD_DATE 1].length = [mkSlot FIRST_RECORD_DATE 1]) ∧
     (∀ s ∈ (ensureSlots [mkSlot FIRST_RECORD_DATE 1] (FIRST_RECORD_DATE + 20)).1.drop
        [mkSlot FIRST_RECORD_DATE 1].length,
        (mkSlot FIRST_RECORD_DATE 1).recordDate < s.recordDate) ∧
     (∀ s, ((ensureSlots [mkSlot FIRST_RECORD_DATE 1] (FIRST_RECORD_DATE + 20)).1.drop
        [mkSlot FIRST_RECORD_DATE 1].length).head? = some s →
        s.recordDate = (mkSlot FIRST_RECORD_DATE 1).recordDate + 7 ∧
        s.episodeNum = [mkSlot FIRST_RECORD_DATE 1].length + 1) ∧
     (∀ i s, ((ensureSlots [mkSlot FIRST_RECORD_DATE 1] (FIRST_RECORD_DATE + 20)).1.drop
        [mkSlot FIRST_RECORD_DATE 1].length)[i]? = some s →
        s.episodeNum = [mkSlot FIRST_RECORD_DATE 1].length + 1 + i)) :=
  ⟨⟨by decide, by decide⟩,
   ensureSlots_extends [mkSlot FIRST_RECORD_DATE 1] (FIRST_RECORD_DATE + 20)
     (mkSlot FIRST_RECORD_DATE 1) (by decide) (by decide)⟩

/-! ### C5: idempotence of `ensureSlots` -/

lemma ensureSlots_no_extend (l : List Slot) (target : Int) (last : Slot)
    (h : l.getLast? = some last) (h2 : ¬ last.recordDate < target) :
    ensureSlots l target = (l, false) := by
  rw [ensureSlots_eq_of_getLast l target last h, if_neg h2]

/-- When the last stored record date is already within a week of the target,
a call returns the collection unchanged (though it may still save). -/
lemma ensureSlots_stable (l : List Slot) (target : Int) (last : Slot)
    (h : l.getLast? = some last) (h7 : target < last.recordDate + 7) :
    (ensureSlots l target).1 = l := by
  rw [ensureSlots_eq_of_getLast l target last h]
  by_cases hlt : last.recordDate < target
  · rw [if_pos hlt]
    show l ++ generateSlots (last.recordDate + 7) target (l.length + 1) = l
    rw [generateSlots_nil _ _ _ (by omega), List.append_nil]
  · rw [if_neg hlt]

/-- Counterexample to claim C5 as stated: with a horizon target 3 days past
the only record date, a second `ensureSlots` call still invokes
`Storage.saveShowSlots` (second component `true`) even though the collection
is returned unchanged — the claim's "performs no writes" is false. -/
theorem ensureSlots_second_call_saves :
    (ensureSlots (ensureSlots [] (FIRST_RECORD_DATE + 3)).1 (FIRST_RECORD_DATE + 3)).2
      = true ∧
    (ensureSlots (ensureSlots [] (FIRST_RECORD_DATE + 3)).1 (FIRST_RECORD_DATE + 3)).1
      = (ensureSlots [] (FIRST_RECORD_DATE + 3)).1 := by
  decide

/-- Claim C5 as amended: a second `ensureSlots` call immediately after the
first (same target) returns the collection unchanged — no duplicated or
re-ordered slots; and when the last slot's record date is on or after the
target the second call performs no write.  (When the last record date is
still strictly before the target the code does perform one redundant save of
the identical collection, per `ensureSlots_second_call_saves`.) -/
theorem ensureSlots_idempotent_content (stored : List Slot) (target : Int) :
    (ensureSlots (ensureSlots stored target).1 target).1
      = (ensureSlots stored target).1 ∧
    (∀ last, (ensureSlots stored target).1.getLast? = some last →
        target ≤ last.recordDate →
        (ensureSlots (ensureSlots stored target).1 target).2 = false) := by
  constructor
  · rcases hlast : stored.getLast? with _ | l0
    · have hnil : stored = [] := List.getLast?_eq_none_iff.mp hlast
      subst hnil
      have e1 : (ensureSlots ([] : List Slot) target).1 =
          generateSlots FIRST_RECORD_DATE target 1 := rfl
      by_cases hg : generateSlots FIRST_RECORD_DATE target 1 = []
      · rw [e1, hg, e1, hg]
      · obtain ⟨last, hl2⟩ :=
          Option.isSome_iff_exists.mp (List.getLast?_isSome.mpr hg)
        have h7 := (generateSlots_getLast hl2).2
        rw [e1]
        exact ensureSlots_stable _ target last hl2 (by omega)
    · by_cases hlt : l0.recordDate < target
      · have e1 : (ensureSlots stored target).1 =
            stored ++ generateSlots (l0.recordDate + 7) target (stored.length + 1) := by
          rw [ensureSlots_eq_of_getLast stored target l0 hlast, if_pos hlt]
        by_cases hg : generateSlots (l0.recordDate + 7) target (stored.length + 1) = []
        · have h7 : target < l0.recordDate + 7 := by
            have := (generateSlots_eq_nil_iff _ _ _).mp hg
            omega
          rw [e1, hg, List.append_nil]
          exact ensureSlots_stable stored target l0 hlast h7
        · obtain ⟨last, hl2⟩ :=
            Option.isSome_iff_exists.mp (List.getLast?_isSome.mpr hg)
          have h7 := (generateSlots_getLast hl2).2
          rw [e1]
          refine ensureSlots_stable _ target last ?_ (by omega)
          rw [List.getLast?_append_of_ne_nil _ hg, hl2]
      · have e1 : ensureSlots stored target = (stored, false) :=
          ensureSlots_no_extend stored target l0 hlast (by omega)
        rw [e1]
        show (ensureSlots stored target).1 = stored
        rw [e1]
  · intro last h hge
    rw [ensureSlots_no_extend _ target last h (by omega)]

/-- Witness for C5 (amended): a collection already past the target is
returned unchanged with no save on the repeated call. -/
theorem ensureSlots_idempotent_content_witness :
    ((ensureSlots [mkSlot FIRST_RECORD_DATE 1] FIRST_RECORD_DATE).1.getLast?
        = some (mkSlot FIRST_RECORD_DATE 1) ∧
     FIRST_RECORD_DATE ≤ (mkSlot FIRST_RECORD_DATE 1).recordDate) ∧
    ((ensureSlots (ensureSlots [mkSlot FIRST_RECORD_DATE 1] FIRST_RECORD_DATE).1
        FIRST_RECORD_DATE).1
      = (ensureSlots [mkSlot FIRST_RECORD_DATE 1] FIRST_RECORD_DATE).1 ∧
     (ensureSlots (ensureSlots [mkSlot FIRST_RECORD_DATE 1] FIRST_RECORD_DATE).1
        FIRST_RECORD_DATE).2 = false) :=
  ⟨⟨by decide, by decide⟩,
   ⟨(ensureSlots_idempotent_content [mkSlot FIRST_RECORD_DATE 1] FIRST_RECORD_DATE).1,
    (ensureSlots_idempotent_content [mkSlot FIRST_RECORD_DATE 1] FIRST_RECORD_DATE).2
      (mkSlot FIRST_RECORD_DATE 1) (by decide) (by decide)⟩⟩

/-! ### Override machinery: find/update lemmas -/

lemma findSlot_cons_pos {a : Slot} {id : String} (l : List Slot) (h : a.id = id) :
    findSlot (a :: l) id = some a := by
  unfold findSlot
  apply List.find?_cons_of_pos
  simp [h]

lemma findSlot_cons_neg {a : Slot} {id : String} (l : List Slot) (h : ¬ a.id = id) :
    findSlot (a :: l) id = findSlot l id := by
  unfold findSlot
  apply List.find?_cons_of_neg
  simp [h]

lemma setSlotOverride_cons (a : Slot) (l : List Slot) (id : String) (v : Option DateStr) :
    setSlotOverride (a :: l) id v =
      if a.id = id then { a with releaseDateOverride := v } :: l
      else a :: setSlotOverride l id v := rfl

/-- Updating the override of the found slot and looking it up again returns
the found slot with only its override changed. -/
lemma findSlot_setSlotOverride (l : List Slot) (id : String) (v : Option DateStr)
    (s₀ : Slot) (h : findSlot l id = some s₀) :
    findSlot (setSlotOverride l id v) id =
      some { s₀ with releaseDateOverride := v } := by
  induction l with
  | nil =>
    unfold findSlot at h
    simp at h
  | cons a l ih =>
    by_cases ha : a.id = id
    · rw [findSlot_cons_pos l ha] at h
      obtain rfl : a = s₀ := Option.some.inj h
      rw [setSlotOverride_cons, if_pos ha]
      exact findSlot_cons_pos l ha
    · rw [findSlot_cons_neg l ha] at h
      rw [setSlotOverride_cons, if_neg ha, findSlot_cons_neg _ ha]
      exact ih h

lemma setSlotOverride_length (l : List Slot) (id : String) (v : Option DateStr) :
    (setSlotOverride l id v).length = l.length := by
  induction l with
  | nil => rfl
  | cons a l ih =>
    rw [setSlotOverride_cons]
    by_cases ha : a.id = id
    · rw [if_pos ha]
      simp
    · rw [if_neg ha]
      simp [ih]

lemma setSlotOverride_getElem? (l : List Slot) (id : String) (v : Option DateStr)
    (i : Nat) (a : Slot) (h : l[i]? = some a) :
    (setSlotOverride l id v)[i]? = some a ∨
    (setSlotOverride l id v)[i]? = some { a with releaseDateOverride := v } := by
  induction l generalizing i with
  | nil => simp at h
  | cons hd tl ih =>
    rw [setSlotOverride_cons]
    by_cases hh : hd.id = id
    · rw [if_pos hh]
      cases i with
      | zero =>
        rw [List.getElem?_cons_zero] at h
        obtain rfl : hd = a := Option.some.inj h
        right
        rw [List.getElem?_cons_zero]
      | succ j =>
        rw [List.getElem?_cons_succ] at h
        left
        rw [List.getElem?_cons_succ]
        exact h
    · rw [if_neg hh]
      cases i with
      | zero =>
        rw [List.getElem?_cons_zero] at h ⊢
        left
        exact h
      | succ j =>
        rw [List.getElem?_cons_succ] at h ⊢
        exact ih j h

lemma setSlotOverride_getElem?_ne (l : List Slot) (id : String) (v : Option DateStr)
    (i : Nat) (a : Slot) (h : l[i]? = some a) (hne : a.id ≠ id) :
    (setSlotOverride l id v)[i]? = some a := by
  induction l generalizing i with
  | nil => simp at h
  | cons hd tl ih =>
    rw [setSlotOverride_cons]
    by_cases hh : hd.id = id
    · rw [if_pos hh]
      cases i with
      | zero =>
        rw [List.getElem?_cons_zero] at h
        obtain rfl : hd = a := Option.some.inj h
        exact absurd hh hne
      | succ j =>
        rw [List.getElem?_cons_succ] at h
        rw [List.getElem?_cons_succ]
        exact h
    · rw [if_neg hh]
      cases i with
      | zero =>
        rw [List.getElem?_cons_zero] at h ⊢
        exact h
      | succ j =>
        rw [List.getElem?_cons_succ] at h ⊢
        exact ih j h

lemma setReleaseDate_store_of_found (stored : List Slot) (id : String) (X : DateStr)
    (s₀ : Slot) (h : findSlot stored id = some s₀) :
    (setReleaseDate stored id X).2.1 = setSlotOverride stored id (some X) := by
  unfold setReleaseDate
  rw [h]

lemma setReleaseDate_of_none (stored : List Slot) (id : String) (X : DateStr)
    (h : findSlot stored id = none) :
    setReleaseDate stored id X = (none, stored, false) := by
  unfold setReleaseDate
  rw [h]

lemma resetReleaseDate_store_of_found (stored : List Slot) (id : String)
    (s₀ : Slot) (h : findSlot stored id = some s₀) :
    (resetReleaseDate stored id).2.1 = setSlotOverride stored id none := by
  unfold resetReleaseDate
  rw [h]

lemma resetReleaseDate_of_none (stored : List Slot) (id : String)
    (h : findSlot stored id = none) :
    resetReleaseDate stored id = (none, stored, false) := by
  unfold resetReleaseDate
  rw [h]

/-! ### C6: override precedence and round-trip -/

/-- Claim C6: for a slot id present in the collection, after
`setReleaseDate(id, X)` the effective release date of that slot is `X`
regardless of its computed `releaseDate`; after a subsequent
`resetReleaseDate(id)` it is exactly the originally computed `releaseDate`. -/
theorem setThenReset_roundtrip (stored : List Slot) (id : String) (X : Int)
    (s₀ : Slot) (h : findSlot stored id = some s₀) :
    ((findSlot (setReleaseDate stored id (DateStr.date X)).2.1 id).map
        getEffectiveReleaseDate = some (DateStr.date X)) ∧
    ((findSlot (resetReleaseDate
          (setReleaseDate stored id (DateStr.date X)).2.1 id).2.1 id).map
        getEffectiveReleaseDate = some (DateStr.date s₀.releaseDate)) := by
  have e1 := setReleaseDate_store_of_found stored id (DateStr.date X) s₀ h
  have hf1 : findSlot (setSlotOverride stored id (some (DateStr.date X))) id
      = some { s₀ with releaseDateOverride := some (DateStr.date X) } :=
    findSlot_setSlotOverride stored id _ s₀ h
  constructor
  · rw [e1, hf1]
    rfl
  · rw [e1, resetReleaseDate_store_of_found _ id _ hf1,
      findSlot_setSlotOverride _ id none _ hf1]
    rfl

/-- Witness for C6 on a one-slot collection. -/
theorem setThenReset_roundtrip_witness :
    (findSlot [mkSlot FIRST_RECORD_DATE 1] "slot_1" = some (mkSlot FIRST_RECORD_DATE 1)) ∧
    (((findSlot (setReleaseDate [mkSlot FIRST_RECORD_DATE 1] "slot_1"
          (DateStr.date 5)).2.1 "slot_1").map
        getEffectiveReleaseDate = some (DateStr.date 5)) ∧
     ((findSlot (resetReleaseDate
          (setReleaseDate [mkSlot FIRST_RECORD_DATE 1] "slot_1"
            (DateStr.date 5)).2.1 "slot_1").2.1 "slot_1").map
        getEffectiveReleaseDate
        = some (DateStr.date (mkSlot FIRST_RECORD_DATE 1).releaseDate))) :=
  ⟨by decide,
   setThenReset_roundtrip [mkSlot FIRST_RECORD_DATE 1] "slot_1" 5
     (mkSlot FIRST_RECORD_DATE 1) (by decide)⟩

/-! ### C8: unknown ids are no-ops -/

/-- Claim C8: for a slot id not present in the collection, `setReleaseDate`
and `resetReleaseDate` both return `null`, leave the stored collection
unchanged, perform no save, and never create a slot. -/
theorem overrides_unknown_id (stored : List Slot) (id : String) (X : DateStr)
    (h : findSlot stored id = none) :
    setReleaseDate stored id X = (none, stored, false) ∧
    resetReleaseDate stored id = (none, stored, false) :=
  ⟨setReleaseDate_of_none stored id X h, resetReleaseDate_of_none stored id h⟩

/-- Witness for C8: an id absent from a nonempty collection. -/
theorem overrides_unknown_id_witness :
    (findSlot [mkSlot FIRST_RECORD_DATE 1] "slot_2" = none) ∧
    (setReleaseDate [mkSlot FIRST_RECORD_DATE 1] "slot_2" (DateStr.date 5)
        = (none, [mkSlot FIRST_RECORD_DATE 1], false) ∧
     resetReleaseDate [mkSlot FIRST_RECORD_DATE 1] "slot_2"
        = (none, [mkSlot FIRST_RECORD_DATE 1], false)) :=
  ⟨by decide,
   overrides_unknown_id [mkSlot FIRST_RECORD_DATE 1] "slot_2" (DateStr.date 5)
     (by decide)⟩

/-! ### C9: frame property of the override mutations -/

/-- Equality of all slot fields except `releaseDateOverride`. -/
def sameExceptOverride (a b : Slot) : Prop :=
  a.id = b.id ∧ a.episodeNumber = b.episodeNumber ∧ a.episodeNum = b.episodeNum ∧
  a.recordDate = b.recordDate ∧ a.releaseDate = b.releaseDate ∧
  a.isRollout = b.isRollout

lemma sameExceptOverride_refl (a : Slot) : sameExceptOverride a a :=
  ⟨rfl, rfl, rfl, rfl, rfl, rfl⟩

lemma sameExceptOverride_update (a : Slot) (v : Option DateStr) :
    sameExceptOverride a { a with releaseDateOverride := v } :=
  ⟨rfl, rfl, rfl, rfl, rfl, rfl⟩

/-- Claim C9: `setReleaseDate` and `resetReleaseDate` modify only the
`releaseDateOverride` field of the targeted slot: lengths are preserved,
every slot keeps all its other fields, and every slot whose id differs from
the target is completely unchanged. -/
theorem overrides_frame (stored : List Slot) (id : String) (X : DateStr) :
    ((setReleaseDate stored id X).2.1.length = stored.length ∧
     (resetReleaseDate stored id).2.1.length = stored.length) ∧
    (∀ (i : Nat) (a b : Slot), stored[i]? = some a →
        (setReleaseDate stored id X).2.1[i]? = some b → sameExceptOverride a b) ∧
    (∀ (i : Nat) (a b : Slot), stored[i]? = some a →
        (resetReleaseDate stored id).2.1[i]? = some b → sameExceptOverride a b) ∧
    (∀ (i : Nat) (a : Slot), stored[i]? = some a → a.id ≠ id →
        (setReleaseDate stored id X).2.1[i]? = some a ∧
        (resetReleaseDate stored id).2.1[i]? = some a) := by
  rcases hf : findSlot stored id with _ | s₀
  · have e1 : (setReleaseDate stored id X).2.1 = stored := by
      rw [setReleaseDate_of_none stored id X hf]
    have e2 : (resetReleaseDate stored id).2.1 = stored := by
      rw [resetReleaseDate_of_none stored id hf]
    rw [e1, e2]
    refine ⟨⟨rfl, rfl⟩, ?_, ?_, ?_⟩
    · intro i a b h h'
      rw [h] at h'
      obtain rfl : a = b := Option.some.inj h'
      exact sameExceptOverride_refl a
    · intro i a b h h'
      rw [h] at h'
      obtain rfl : a = b := Option.some.inj h'
      exact sameExceptOverride_refl a
    · intro i a h _
      exact ⟨h, h⟩
  · have e1 : (setReleaseDate stored id X).2.1 = setSlotOverride stored id (some X) :=
      setReleaseDate_store_of_found stored id X s₀ hf
    have e2 : (resetReleaseDate stored id).2.1 = setSlotOverride stored id none :=
      resetReleaseDate_store_of_found stored id s₀ hf
    rw [e1, e2]
    refine ⟨⟨setSlotOverride_length _ _ _, setSlotOverride_length _ _ _⟩, ?_, ?_, ?_⟩
    · intro i a b h h'
      rcases setSlotOverride_getElem? stored id (some X) i a h with h1 | h1 <;>
        rw [h1] at h'
      · obtain rfl : a = b := Option.some.inj h'
        exact sameExceptOverride_refl a
      · obtain rfl : { a with releaseDateOverride := some X } = b :=
          Option.some.inj h'
        exact sameExceptOverride_update a _
    · intro i a b h h'
      rcases setSlotOverride_getElem? stored id none i a h with h1 | h1 <;>
        rw [h1] at h'
      · obtain rfl : a = b := Option.some.inj h'
        exact sameExceptOverride_refl a
      · obtain rfl : { a with releaseDateOverride := none } = b :=
          Option.some.inj h'
        exact sameExceptOverride_update a _
    · intro i a h hne
      exact ⟨setSlotOverride_getElem?_ne stored id (some X) i a h hne,
        setSlotOverride_getElem?_ne stored id none i a h hne⟩

/-- Witness for C9: the pointwise frame facts realised at index 0 of a
one-slot collection. -/
theorem overrides_frame_witness :
    ([mkSlot FIRST_RECORD_DATE 1][0]? = some (mkSlot FIRST_RECORD_DATE 1) ∧
     (setReleaseDate [mkSlot FIRST_RECORD_DATE 1] "slot_1" (DateStr.date 5)).2.1[0]?
       = some { mkSlot FIRST_RECORD_DATE 1 with
                  releaseDateOverride := some (DateStr.date 5) }) ∧
    sameExceptOverride (mkSlot FIRST_RECORD_DATE 1)
      { mkSlot FIRST_RECORD_DATE 1 with releaseDateOverride := some (DateStr.date 5) } :=
  ⟨⟨by decide, by decide⟩,
   (overrides_frame [mkSlot FIRST_RECORD_DATE 1] "slot_1" (DateStr.date 5)).2.1
     0 (mkSlot FIRST_RECORD_DATE 1)
     { mkSlot FIRST_RECORD_DATE 1 with releaseDateOverride := some (DateStr.date 5) }
     (by decide) (by decide)⟩

/-! ### C10: falsy overrides fall back to the computed release date -/

/-- Claim C10: when a slot's `releaseDateOverride` is falsy — absent (also
covering JS `null`) or the empty string — `getEffectiveReleaseDate` returns
the computed `releaseDate`; in particular, setting an override to the empty
string via `setReleaseDate` makes the effective release date fall back to
the computed `releaseDate` rather than the override value. -/
theorem effective_falsy_fallback (stored : List Slot) (id : String)
    (s s₀ : Slot) (h : findSlot stored id = some s₀) :
    ((s.releaseDateOverride = none ∨ s.releaseDateOverride = some DateStr.empty) →
      getEffectiveReleaseDate s = DateStr.date s.releaseDate) ∧
    ((findSlot (setReleaseDate stored id DateStr.empty).2.1 id).map
        getEffectiveReleaseDate = some (DateStr.date s₀.releaseDate)) := by
  constructor
  · rintro (h1 | h1) <;> unfold getEffectiveReleaseDate <;> rw [h1]
  · rw [setReleaseDate_store_of_found stored id DateStr.empty s₀ h,
      findSlot_setSlotOverride stored id _ s₀ h]
    rfl

/-- Witness for C10 on a one-slot collection with no override. -/
theorem effective_falsy_fallback_witness :
    (findSlot [mkSlot FIRST_RECORD_DATE 1] "slot_1" = some (mkSlot FIRST_RECORD_DATE 1) ∧
     (mkSlot FIRST_RECORD_DATE 1).releaseDateOverride = none) ∧
    (getEffectiveReleaseDate (mkSlot FIRST_RECORD_DATE 1)
        = DateStr.date (mkSlot FIRST_RECORD_DATE 1).releaseDate ∧
     (findSlot (setReleaseDate [mkSlot FIRST_RECORD_DATE 1] "slot_1"
          DateStr.empty).2.1 "slot_1").map getEffectiveReleaseDate
        = some (DateStr.date (mkSlot FIRST_RECORD_DATE 1).releaseDate)) :=
  ⟨⟨by decide, by decide⟩,
   ⟨(effective_falsy_fallback [mkSlot FIRST_RECORD_DATE 1] "slot_1"
       (mkSlot FIRST_RECORD_DATE 1) (mkSlot FIRST_RECORD_DATE 1) (by decide)).1
       (Or.inl (by decide)),
    (effective_falsy_fallback [mkSlot FIRST_RECORD_DATE 1] "slot_1"
       (mkSlot FIRST_RECORD_DATE 1) (mkSlot FIRST_RECORD_DATE 1) (by decide)).2⟩⟩

/-! ### C7: the public feed endpoint (src/cloudflare/worker.js)

`handlePublicEpisodes` reads `showSlots`, `assignments` and `ideas` from KV,
keeps slots with `slot.releaseDate <= todayPST` (a `YYYY-MM-DD` string
comparison, i.e. day-number comparison) that are assigned to an existing,
titled idea, sorts the resulting episodes newest-first, and returns one page.
`todayPST` (now at fixed offset UTC-8) is passed in as the `today`
parameter; `page` and `limit` are the already-parsed integer query
parameters, clamped as in the source.  A JSON object is modelled as an
association list in which a later binding for the same key wins, matching
`JSON.parse` and the `forEach` that builds `ideasMap`. -/

/-- One idea record as consumed by the worker: `selectedTitle`, `titles` and
`summary` may each be absent, and strings may be empty (JS-falsy). -/
structure Idea where
  id : String
  selectedTitle : Option String := none
  titles : Option (List String) := none
  summary : Option String := none
deriving DecidableEq

/-- One entry of the worker's `allEpisodes` array. -/
structure Episode where
  episodeNumber : String
  title : String
  summary : String
  releaseDate : Int
deriving DecidableEq

/-- Lookup in a JS object modelled as an association list (`assignments[key]`):
the last binding for a key wins, as with `JSON.parse`. -/
def objLookup (m : List (String × String)) (k : String) : Option String :=
  m.foldl (fun acc p => if p.1 = k then some p.2 else acc) none

/-- The worker's `ideasMap` built by `ideas.forEach(i => ideasMap[i.id] = i)`
followed by `ideasMap[ideaId]`: the last idea with a given id wins. -/
def ideasMapLookup (ideas : List Idea) (iid : String) : Option Idea :=
  ideas.foldl (fun acc idea => if idea.id = iid then some idea else acc) none

/-- The worker's fallback title source `idea.titles && idea.titles[0]`:
produces a title only when `titles` is present, nonempty, and its first
element is a truthy (nonempty) string. -/
def ideaTitleFromTitles (idea : Idea) : Option String :=
  match idea.titles with
  | some (t :: _) => if t = "" then none else some t
  | _ => none

/-- The worker's `idea.selectedTitle || (idea.titles && idea.titles[0]) || null`. -/
def ideaTitle (idea : Idea) : Option String :=
  match idea.selectedTitle with
  | some t => if t = "" then ideaTitleFromTitles idea else some t
  | none => ideaTitleFromTitles idea

/-- The worker's `idea.summary || ''`. -/
def ideaSummary (idea : Idea) : String :=
  idea.summary.getD ""

/-- One iteration of the worker's `for (const slot of slots)` loop: `none`
when any `continue` fires, otherwise the pushed episode.  Note the filter
reads `slot.releaseDate`, not the effective release date. -/
def slotEpisode (assignments : List (String × String)) (ideas : List Idea)
    (today : Int) (slot : Slot) : Option Episode :=
  if today < slot.releaseDate then none
  else
    match objLookup assignments slot.id with
    | none => none
    | some iid =>
      if iid = "" then none
      else
        match ideasMapLookup ideas iid with
        | none => none
        | some idea =>
          match ideaTitle idea with
          | none => none
          | some title =>
            some { episodeNumber := slot.episodeNumber, title := title,
                   summary := ideaSummary idea, releaseDate := slot.releaseDate }

/-- The worker's `allEpisodes` array (before sorting and pagination). -/
def publicEpisodesAll (slots : List Slot) (assignments : List (String × String))
    (ideas : List Idea) (today : Int) : List Episode :=
  slots.filterMap (slotEpisode assignments ideas today)

/-- Stable descending insertion by `releaseDate`, modelling the worker's
stable `allEpisodes.sort((a, b) => b.releaseDate.localeCompare(a.releaseDate))`. -/
def insertEpisode (e : Episode) : List Episode → List Episode
  | [] => [e]
  | x :: xs =>
    if x.releaseDate < e.releaseDate then e :: x :: xs
    else x :: insertEpisode e xs

/-- Sort newest first (stable). -/
def sortEpisodes : List Episode → List Episode
  | [] => []
  | e :: es => insertEpisode e (sortEpisodes es)

/-- The worker's pagination: `page = Math.max(1, page)`,
`limit = Math.min(50, Math.max(1, limit))`, then
`slice((page - 1) * limit, page * limit)`. -/
def paginate (l : List Episode) (page limit : Int) : List Episode :=
  let p := max 1 page
  let lim := min 50 (max 1 limit)
  (l.drop ((p - 1) * lim).toNat).take lim.toNat

/-- The worker's `handlePublicEpisodes`: the `episodes` array of the response. -/
def handlePublicEpisodes (slots : List Slot) (assignments : List (String × String))
    (ideas : List Idea) (today page limit : Int) : List Episode :=
  paginate (sortEpisodes (publicEpisodesAll slots assignments ideas today)) page limit

lemma mem_insertEpisode {e x : Episode} {l : List Episode} :
    x ∈ insertEpisode e l ↔ x = e ∨ x ∈ l := by
  induction l with
  | nil => simp [insertEpisode]
  | cons a l ih =>
    unfold insertEpisode
    by_cases hc : a.releaseDate < e.releaseDate
    · rw [if_pos hc]
      simp [List.mem_cons]
    · rw [if_neg hc]
      simp [List.mem_cons, ih]
      tauto

lemma mem_sortEpisodes {x : Episode} {l : List Episode} :
    x ∈ sortEpisodes l ↔ x ∈ l := by
  induction l with
  | nil => simp [sortEpisodes]
  | cons a l ih =>
    unfold sortEpisodes
    rw [mem_insertEpisode]
    simp [List.mem_cons, ih]

/-- Inversion: a produced episode records the slot's computed release date,
which must be on or before today. -/
lemma slotEpisode_inv {assignments : List (String × String)} {ideas : List Idea}
    {today : Int} {slot : Slot} {ep : Episode}
    (h : slotEpisode assignments ideas today slot = some ep) :
    slot.releaseDate ≤ today ∧ ep.releaseDate = slot.releaseDate ∧
    ep.episodeNumber = slot.episodeNumber := by
  unfold slotEpisode at h
  split at h
  · exact absurd h (by simp)
  · split at h
    · exact absurd h (by simp)
    · split at h
      · exact absurd h (by simp)
      · split at h
        · exact absurd h (by simp)
        · split at h
          · exact absurd h (by simp)
          · obtain rfl := Option.some.inj h
            exact ⟨by omega, rfl, rfl⟩

/-- Construction: a slot passing every check of the loop body produces
exactly the episode the worker pushes. -/
lemma slotEpisode_of_conditions {assignments : List (String × String)}
    {ideas : List Idea} {today : Int} {slot : Slot} {iid : String}
    {idea : Idea} {title : String}
    (h1 : slot.releaseDate ≤ today) (h2 : objLookup assignments slot.id = some iid)
    (h3 : iid ≠ "") (h4 : ideasMapLookup ideas iid = some idea)
    (h5 : ideaTitle idea = some title) :
    slotEpisode assignments ideas today slot =
      some { episodeNumber := slot.episodeNumber, title := title,
             summary := ideaSummary idea, releaseDate := slot.releaseDate } := by
  unfold slotEpisode
  rw [if_neg (by omega)]
  simp only [h2]
  rw [if_neg h3]
  simp only [h4, h5]

/-- The slot whose computed `releaseDate` is in the past but whose
`releaseDateOverride` pushes the effective release into the future. -/
def cexSlot : Slot :=
  { id := "slot_1", episodeNumber := "EP001", episodeNum := 1,
    recordDate := 0, releaseDate := 10, isRollout := false,
    releaseDateOverride := some (DateStr.date 100) }

/-- An assigned, titled idea for `cexSlot`. -/
def cexIdea : Idea :=
  { id := "idea_1", selectedTitle := some "Title", titles := none,
    summary := some "Sum" }

/-- Counterexample to claim C7 as stated: with `today = 50`, the only slot
has effective release date 100 (override), yet the feed still returns an
episode for it, because the filter reads the computed `releaseDate` (10) and
ignores `releaseDateOverride`.  So not every returned episode comes from a
slot whose effective release date is on or before today. -/
theorem publicEpisodes_ignores_override :
    ¬ (∀ ep ∈ handlePublicEpisodes [cexSlot] [("slot_1", "idea_1")] [cexIdea] 50 1 10,
        ∃ slot ∈ [cexSlot], slot.episodeNumber = ep.episodeNumber ∧
          effectiveDay slot ≤ 50) := by
  decide

/-- Claim C7 as amended: the feed filters on the slot's *computed*
`releaseDate` (ignoring `releaseDateOverride`): every episode returned by
the endpoint comes from a slot whose computed `releaseDate` is on or before
today, and every assigned, titled slot whose computed `releaseDate` is on or
before today contributes its episode to the full pre-pagination list (each
response then returns one page of that list). -/
theorem publicEpisodes_uses_computed_releaseDate
    (slots : List Slot) (assignments : List (String × String)) (ideas : List Idea)
    (today page limit : Int) :
    (∀ ep ∈ handlePublicEpisodes slots assignments ideas today page limit,
        ∃ slot ∈ slots, slotEpisode assignments ideas today slot = some ep ∧
          slot.releaseDate ≤ today ∧ ep.releaseDate = slot.releaseDate ∧
          ep.episodeNumber = slot.episodeNumber) ∧
    (∀ slot ∈ slots, ∀ (iid : String) (idea : Idea) (title : String),
        slot.releaseDate ≤ today →
        objLookup assignments slot.id = some iid → iid ≠ "" →
        ideasMapLookup ideas iid = some idea → ideaTitle idea = some title →
        ({ episodeNumber := slot.episodeNumber, title := title,
           summary := ideaSummary idea, releaseDate := slot.releaseDate } : Episode)
          ∈ publicEpisodesAll slots assignments ideas today) := by
  constructor
  · intro ep hep
    have h1 : ep ∈ sortEpisodes (publicEpisodesAll slots assignments ideas today) :=
      List.mem_of_mem_drop (List.mem_of_mem_take hep)
    have h2 : ep ∈ publicEpisodesAll slots assignments ideas today :=
      mem_sortEpisodes.mp h1
    obtain ⟨slot, hmem, heq⟩ := List.mem_filterMap.mp h2
    obtain ⟨hle, hrd, hen⟩ := slotEpisode_inv heq
    exact ⟨slot, hmem, heq, hle, hrd, hen⟩
  · intro slot hmem iid idea title h1 h2 h3 h4 h5
    exact List.mem_filterMap.mpr
      ⟨slot, hmem, slotEpisode_of_conditions h1 h2 h3 h4 h5⟩

/-- Witness for C7 (amended): a released, assigned, titled slot shows up in
the pre-pagination feed. -/
theorem publicEpisodes_uses_computed_releaseDate_witness :
    (cexSlot ∈ [cexSlot] ∧ cexSlot.releaseDate ≤ (50 : Int) ∧
     objLookup [("slot_1", "idea_1")] cexSlot.id = some "idea_1" ∧
     ("idea_1" : String) ≠ "" ∧
     ideasMapLookup [cexIdea] "idea_1" = some cexIdea ∧
     ideaTitle cexIdea = some "Title") ∧
    ({ episodeNumber := cexSlot.episodeNumber, title := "Title",
       summary := ideaSummary cexIdea, releaseDate := cexSlot.releaseDate } : Episode)
      ∈ publicEpisodesAll [cexSlot] [("slot_1", "idea_1")] [cexIdea] 50 :=
  ⟨⟨by decide, by decide, by decide, by decide, by decide, by decide⟩,
   (publicEpisodes_uses_computed_releaseDate [cexSlot] [("slot_1", "idea_1")]
       [cexIdea] 50 1 10).2 cexSlot (by decide) "idea_1" cexIdea "Title"
     (by decide) (by decide) (by decide) (by decide) (by decide)⟩

end Satt
